import Mathlib

set_option maxRecDepth 4000

/-!
Verification of the Panjas lazy pipeline engine (`src/series.js`) against its
natural-language specification.

Shallow embedding conventions:
* A pipeline consumption (driving a cursor to exhaustion) denotes a
  `List (I × V)` of index/value pairs.
* The JavaScript `undefined` value on the value channel of a `Series` is
  modelled as `Option V` with `none` standing for `undefined`.
* Code that can throw is embedded as `Except JsErr`.
* While-loops over cursors are translated to structural recursions over the
  pair list the cursor yields.
-/

/-- Error kinds thrown by the core (spec section 7 names them; the source
throws `Error` objects whose messages are not normative). -/
inductive JsErr where
  | emptySeries
  | typeMismatch
  | selectNotObject
  | invalidArgument
  deriving DecidableEq, Repr

/-! ## Series materialization (C2)

`Series.prototype.toValues` (`src/series.js` lines 918-934): drives the
iterator and pushes `pair[1]` whenever it is not `undefined`.
`Series.prototype.toPairs` (lines 966-982): drives the iterator and pushes the
whole pair whenever `pair[1]` is not `undefined`.
`DataFrame.prototype.toPairs` (lines 3719-3733): drives the iterator and
pushes every pair, with no test on the value.
-/

/-- `Series.prototype.toValues`: the while-loop that extracts `pair[1]` and
pushes it when it is not `undefined`. -/
def seriesToValues {I V : Type} : List (I × Option V) → List V
  | [] => []
  | p :: rest =>
    match p.2 with
    | some v => v :: seriesToValues rest
    | none => seriesToValues rest

/-- `Series.prototype.toPairs`: the while-loop that pushes the current pair
when `pair[1] !== undefined`. -/
def seriesToPairs {I V : Type} : List (I × Option V) → List (I × Option V)
  | [] => []
  | p :: rest =>
    match p.2 with
    | some _ => p :: seriesToPairs rest
    | none => seriesToPairs rest

/-- `DataFrame.prototype.toPairs`: the while-loop that pushes every pair of
the frame, performing no filtering at all.  The row type is abstract. -/
def dataFrameToPairs {I R : Type} : List (I × R) → List (I × R)
  | [] => []
  | p :: rest => p :: dataFrameToPairs rest

theorem seriesToPairs_eq_filter {I V : Type} (l : List (I × Option V)) :
    seriesToPairs l = l.filter (fun p => p.2.isSome) := by
  induction l with
  | nil => rfl
  | cons p rest ih =>
    cases h : p.2 <;> simp [seriesToPairs, h, ih]

theorem seriesToValues_eq_filterMap {I V : Type} (l : List (I × Option V)) :
    seriesToValues l = l.filterMap (fun p => p.2) := by
  induction l with
  | nil => rfl
  | cons p rest ih =>
    cases h : p.2 <;> simp [seriesToValues, h, ih]

theorem dataFrameToPairs_eq_id {I R : Type} (l : List (I × R)) :
    dataFrameToPairs l = l := by
  induction l with
  | nil => rfl
  | cons p rest ih => simp [dataFrameToPairs, ih]

/-- C2 counterexample: a `DataFrame` whose pipeline yields the single pair
`(0, undefined)` still reports that pair from `toPairs()`; the pair with an
absent value is not removed, contradicting the claim for DataFrames. -/
theorem c2_dataFrame_toPairs_keeps_absent :
    ((0 : Nat), (none : Option Nat)) ∈ dataFrameToPairs [((0 : Nat), (none : Option Nat))] := by
  simp [dataFrameToPairs]

/-- C2 (amended): `Series.toPairs` returns the pipeline pairs in source order
with every absent-valued pair removed, and `Series.toValues` returns exactly
the non-absent values in source order; `DataFrame.toPairs`, however, returns
every pair of the pipeline unfiltered, absent-valued pairs included. -/
theorem c2_toPairs_amended {I V R : Type} (l : List (I × Option V)) (m : List (I × R)) :
    seriesToPairs l = l.filter (fun p => p.2.isSome)
    ∧ seriesToValues l = l.filterMap (fun p => p.2)
    ∧ dataFrameToPairs m = m := by
  exact ⟨seriesToPairs_eq_filter l, seriesToValues_eq_filterMap l, dataFrameToPairs_eq_id m⟩

/-! ## Reverse (C8)

`Series.prototype.reverse` (lines 1105-1126) materializes the pair stream
into an array and returns an array-backed iterable over `pairs.reverse()`.
`DataFrame.prototype.reverse` (lines 3999-4015) does the same and passes the
column names through unchanged.
-/

/-- The pair stream produced by `Series.prototype.reverse`: materialize all
pairs, then replay the reversed array. -/
def seriesReverse {I V : Type} (pairs : List (I × V)) : List (I × V) :=
  pairs.reverse

/-- A DataFrame denotation: the ordered column-name vector plus the pair
stream of index/record pairs. -/
structure DataFrameD (I R : Type) where
  columnNames : List String
  pairs : List (I × R)
  deriving DecidableEq, Repr

/-- The frame produced by `DataFrame.prototype.reverse`: column names are
passed through, the pair stream is materialized and reversed. -/
def dataFrameReverse {I R : Type} (df : DataFrameD I R) : DataFrameD I R :=
  { columnNames := df.columnNames, pairs := df.pairs.reverse }

/-- C8: reversing twice yields the very same sequence of index/value pairs,
for Series pipelines and for DataFrames (whose column names also survive). -/
theorem c8_reverse_involution {I V R : Type} (pairs : List (I × V)) (df : DataFrameD I R) :
    seriesReverse (seriesReverse pairs) = pairs
    ∧ dataFrameReverse (dataFrameReverse df) = df := by
  constructor
  · simp [seriesReverse]
  · simp [dataFrameReverse]

/-! ## Column name lookup (C10)

`DataFrame.prototype.getColumnIndex` (lines 2517-2530): linear scan over the
column names, returning the first matching position, `-1` when absent.
`DataFrame.prototype.getColumnName` (lines 2539-2550): bounds test, then
array indexing; `undefined` when out of range.
-/

/-- The scanning loop of `getColumnIndex`, carrying the current position. -/
def getColumnIndexAux (columnName : String) : List String → Nat → Int
  | [], _ => -1
  | n :: rest, i => if columnName = n then (i : Int) else getColumnIndexAux columnName rest (i + 1)

/-- `DataFrame.prototype.getColumnIndex`: index of the first column with the
given name, `-1` when no column matches. -/
def getColumnIndex (columnNames : List String) (columnName : String) : Int :=
  getColumnIndexAux columnName columnNames 0

/-- `DataFrame.prototype.getColumnName`: `undefined` (modelled `none`) when
the index is negative or not below the number of columns, otherwise the name
at that position. -/
def getColumnName (columnNames : List String) (columnIndex : Int) : Option String :=
  if columnIndex < 0 ∨ (columnNames.length : Int) ≤ columnIndex then none
  else columnNames.get? columnIndex.toNat

theorem getColumnIndexAux_not_mem (name : String) (names : List String) (i : Nat)
    (h : name ∉ names) : getColumnIndexAux name names i = -1 := by
  induction names generalizing i with
  | nil => rfl
  | cons n rest ih =>
    simp only [List.mem_cons, not_or] at h
    simp [getColumnIndexAux, h.1, ih (i + 1) h.2]

theorem getColumnIndexAux_mem (name : String) (names : List String) (i : Nat)
    (h : name ∈ names) :
    ∃ j : Nat, getColumnIndexAux name names i = (i + j : Nat)
      ∧ names.get? j = some name := by
  induction names generalizing i with
  | nil => simp at h
  | cons n rest ih =>
    by_cases hn : name = n
    · refine ⟨0, ?_, ?_⟩
      · simp [getColumnIndexAux, hn]
      · simp [hn]
    · have hmem : name ∈ rest := by
        rcases List.mem_cons.mp h with h1 | h2
        · exact absurd h1 hn
        · exact h2
      obtain ⟨j, hj, hget⟩ := ih (i + 1) hmem
      refine ⟨j + 1, ?_, ?_⟩
      · have : i + 1 + j = i + (j + 1) := by omega
        simp [getColumnIndexAux, hn, hj, this]
      · simpa using hget

theorem getColumnIndexAux_nodup (name : String) (names : List String) (i k : Nat)
    (hnd : names.Nodup) (hk : names.get? k = some name) :
    getColumnIndexAux name names i = (i + k : Nat) := by
  induction names generalizing i k with
  | nil => simp at hk
  | cons n rest ih =>
    rcases k with _ | k
    · simp only [List.get?] at hk
      injection hk with hk
      simp [getColumnIndexAux, hk]
    · simp only [List.get?] at hk
      have hmem : name ∈ rest := List.get?_mem hk
      have hn : name ≠ n := by
        intro hEq
        subst hEq
        exact (List.nodup_cons.mp hnd).1 hmem
      have := ih (i + 1) k (List.nodup_cons.mp hnd).2 hk
      have harith : i + 1 + k = i + (k + 1) := by omega
      simp [getColumnIndexAux, hn, this, harith]

/-- C10: `getColumnIndex` answers `-1` on a name that is not a declared
column, `getColumnName` answers `undefined` on any position outside
`[0, number of columns)` (neither can throw: both are total functions), and
on declared columns the two are mutually inverse, the index-to-name-to-index
direction under the documented invariant that column names are unique. -/
theorem c10_column_lookup_total (names : List String) (name : String) (i : Int) (k : Nat)
    (hname : name ∉ names) (hi : i < 0 ∨ (names.length : Int) ≤ i)
    (hk : k < names.length) (hnd : names.Nodup) :
    getColumnIndex names name = -1
    ∧ getColumnName names i = none
    ∧ (∀ n ∈ names, getColumnName names (getColumnIndex names n) = some n)
    ∧ getColumnIndex names (names.get ⟨k, hk⟩) = (k : Int) := by
  refine ⟨getColumnIndexAux_not_mem name names 0 hname, ?_, ?_, ?_⟩
  · simp [getColumnName, hi]
  · intro n hn
    obtain ⟨j, hj, hget⟩ := getColumnIndexAux_mem n names 0 hn
    have hjlt : j < names.length := by
      by_contra hge
      rw [List.get?_eq_none.mpr (Nat.le_of_not_lt hge)] at hget
      exact Option.noConfusion hget
    rw [getColumnIndex, hj]
    have h0 : (0 + j : Nat) = j := by omega
    rw [h0]
    have hnn : ¬((j : Int) < 0 ∨ (names.length : Int) ≤ (j : Int)) := by
      push_neg
      constructor
      · exact Int.natCast_nonneg j
      · exact_mod_cast hjlt
    simp only [getColumnName, hnn, if_false]
    simpa using hget
  · have hget : names.get? k = some (names.get ⟨k, hk⟩) := List.get?_eq_get hk
    have := getColumnIndexAux_nodup (names.get ⟨k, hk⟩) names 0 k hnd hget
    rw [getColumnIndex, this]
    omega

/-- C10 witness: the general lookup theorem applied to the concrete column
vector `["A", "B"]`, the absent name `"C"`, and the out-of-range index `5`. -/
theorem c10_column_lookup_total_witness :
    getColumnIndex ["A", "B"] "C" = -1
    ∧ getColumnName ["A", "B"] 5 = none
    ∧ (∀ n ∈ ["A", "B"], getColumnName ["A", "B"] (getColumnIndex ["A", "B"] n) = some n)
    ∧ getColumnIndex ["A", "B"] (["A", "B"].get ⟨1, by decide⟩) = (1 : Int) :=
  c10_column_lookup_total ["A", "B"] "C" 5 1 (by decide)
    (by right; decide) (by decide) (by decide)

/-! ## Aggregation and head/tail queries (C5)

`Series.prototype.sum` (lines 1180-1192) returns 0 when `none()` reports an
empty pipeline, otherwise reduces with `prev + value` through `aggregate`.
`average` (lines 1197-1207) divides `sum()` by `count()` when the count is
positive and returns 0 otherwise.  `min`/`max` (lines 1212-1233) call
`aggregate` with only a reducer; `aggregate` (lines 1241-1260) then seeds the
reduction with `first()`, which throws on an empty sequence, as do `last`,
`firstPair` and `lastPair` (lines 1003-1066).  JavaScript numbers are
modelled as rationals.
-/

/-- `Series.prototype.count`: the counting while-loop. -/
def seriesCount {I V : Type} : List (I × V) → Nat
  | [] => 0
  | _ :: rest => seriesCount rest + 1

/-- `Series.prototype.none` called with no predicate: `!iterator.moveNext()`. -/
def seriesNoneNoPred {I V : Type} : List (I × V) → Bool
  | [] => true
  | _ :: _ => false

/-- `Series.prototype.first`: value of the first pair, error on empty. -/
def seriesFirst {I V : Type} : List (I × V) → Except JsErr V
  | [] => .error .emptySeries
  | p :: _ => .ok p.2

/-- `Series.prototype.last`: drives to exhaustion, value of the final pair,
error on empty. -/
def seriesLast {I V : Type} : List (I × V) → Except JsErr V
  | [] => .error .emptySeries
  | [p] => .ok p.2
  | _ :: p :: rest => seriesLast (p :: rest)

/-- `Series.prototype.firstPair`: the first pair itself, error on empty. -/
def seriesFirstPair {I V : Type} : List (I × V) → Except JsErr (I × V)
  | [] => .error .emptySeries
  | p :: _ => .ok p

/-- `Series.prototype.lastPair`: the final pair, error on empty. -/
def seriesLastPair {I V : Type} : List (I × V) → Except JsErr (I × V)
  | [] => .error .emptySeries
  | [p] => .ok p
  | _ :: p :: rest => seriesLastPair (p :: rest)

/-- Modelled from the spec: `Skip(n)` discards the first `n` pairs, then
passes through (spec section 4.C); the `SkipIterable` class itself is not
under `src`. -/
def seriesSkip {α : Type} (l : List α) (numRows : Nat) : List α :=
  l.drop numRows

/-- The seeded branch of `Series.prototype.aggregate`: the while-loop folding
the working value over each pair's value. -/
def seriesAggregateSeeded {I V A : Type} (f : A → V → A) : A → List (I × V) → A
  | working, [] => working
  | working, p :: rest => seriesAggregateSeeded f (f working p.2) rest

/-- The reducer-only branch of `Series.prototype.aggregate`:
`self.skip(1).aggregate(self.first(), reducer)`; `first()` throws on an
empty sequence. -/
def seriesAggregateNoSeed {I V : Type} (f : V → V → V) (l : List (I × V)) :
    Except JsErr V :=
  match seriesFirst l with
  | .error e => .error e
  | .ok seed => .ok (seriesAggregateSeeded f seed (seriesSkip l 1))

/-- `Series.prototype.sum`: 0 on an empty pipeline, otherwise the
reducer-only aggregate of addition. -/
def seriesSum {I : Type} (l : List (I × ℚ)) : Except JsErr ℚ :=
  if seriesNoneNoPred l then .ok 0
  else seriesAggregateNoSeed (fun prev value => prev + value) l

/-- `Series.prototype.average`: `sum() / count()` when the count is positive,
0 otherwise. -/
def seriesAverage {I : Type} (l : List (I × ℚ)) : Except JsErr ℚ :=
  let count := seriesCount l
  if count > 0 then
    match seriesSum l with
    | .error e => .error e
    | .ok s => .ok (s / (count : ℚ))
  else .ok 0

/-- `Series.prototype.min`: reducer-only aggregate of `Math.min`. -/
def seriesMin {I : Type} (l : List (I × ℚ)) : Except JsErr ℚ :=
  seriesAggregateNoSeed (fun prev value => min prev value) l

/-- `Series.prototype.max`: reducer-only aggregate of `Math.max`. -/
def seriesMax {I : Type} (l : List (I × ℚ)) : Except JsErr ℚ :=
  seriesAggregateNoSeed (fun prev value => max prev value) l

/-- C5: on the empty Series, `sum()` returns 0 and `average()` returns 0
(not NaN), while `min`, `max`, `first`, `last`, `firstPair` and `lastPair`
all raise the empty-sequence error. -/
theorem c5_empty_series_aggregates :
    seriesSum ([] : List (Nat × ℚ)) = .ok 0
    ∧ seriesAverage ([] : List (Nat × ℚ)) = .ok 0
    ∧ seriesMin ([] : List (Nat × ℚ)) = .error .emptySeries
    ∧ seriesMax ([] : List (Nat × ℚ)) = .error .emptySeries
    ∧ seriesFirst ([] : List (Nat × ℚ)) = .error .emptySeries
    ∧ seriesLast ([] : List (Nat × ℚ)) = .error .emptySeries
    ∧ seriesFirstPair ([] : List (Nat × ℚ)) = .error .emptySeries
    ∧ seriesLastPair ([] : List (Nat × ℚ)) = .error .emptySeries :=
  ⟨rfl, rfl, rfl, rfl, rfl, rfl, rfl, rfl⟩

/-! ## SkipWhileIterator (C7)

`SkipWhileIterator` (`src/series.js` lines 4633-4663): holds a `skipped`
flag, initially false.  Each `moveNext` pulls the child; once `skipped` is
set it returns true immediately, without consulting the predicate; before
that it evaluates the predicate on the current pair, discarding while true
and setting `skipped` on the first false.
-/

/-- Operational model of `SkipWhileIterator` driven to exhaustion over the
child stream, carrying the `skipped` flag.  Returns the emitted pairs
together with the list of pairs the predicate was actually evaluated on, in
evaluation order. -/
def skipWhileRunFlag {P : Type} (pred : P → Bool) : List P → Bool → List P × List P
  | [], _ => ([], [])
  | x :: xs, true =>
    let r := skipWhileRunFlag pred xs true
    (x :: r.1, r.2)
  | x :: xs, false =>
    if pred x then
      let r := skipWhileRunFlag pred xs false
      (r.1, x :: r.2)
    else
      let r := skipWhileRunFlag pred xs true
      (x :: r.1, x :: r.2)

theorem skipWhileRunFlag_skipped {P : Type} (pred : P → Bool) (l : List P) :
    skipWhileRunFlag pred l true = (l, []) := by
  induction l with
  | nil => rfl
  | cons x xs ih => simp [skipWhileRunFlag, ih]

theorem skipWhileRunFlag_out {P : Type} (pred : P → Bool) (l : List P) :
    (skipWhileRunFlag pred l false).1 = l.dropWhile pred := by
  induction l with
  | nil => rfl
  | cons x xs ih =>
    by_cases h : pred x
    · simp [skipWhileRunFlag, h, ih, List.dropWhile_cons]
    · simp [skipWhileRunFlag, h, skipWhileRunFlag_skipped, List.dropWhile_cons]

theorem skipWhileRunFlag_evals {P : Type} (pred : P → Bool) (l : List P) :
    (skipWhileRunFlag pred l false).2
      = l.takeWhile pred ++ (l.dropWhile pred).take 1 := by
  induction l with
  | nil => rfl
  | cons x xs ih =>
    by_cases h : pred x
    · simp [skipWhileRunFlag, h, ih, List.takeWhile_cons, List.dropWhile_cons]
    · simp [skipWhileRunFlag, h, skipWhileRunFlag_skipped,
        List.takeWhile_cons, List.dropWhile_cons]

/-- C7: a fresh SkipWhile cursor emits exactly the input with its maximal
true-predicate prefix discarded; the predicate is evaluated precisely on that
discarded prefix plus the single first failing pair; and once the flag is
set (after the first false) every remaining pair passes through with zero
further predicate evaluations. -/
theorem c7_skipWhile_iterator {P : Type} (pred : P → Bool) (l rest : List P) :
    (skipWhileRunFlag pred l false).1 = l.dropWhile pred
    ∧ (skipWhileRunFlag pred l false).2
        = l.takeWhile pred ++ (l.dropWhile pred).take 1
    ∧ skipWhileRunFlag pred rest true = (rest, []) :=
  ⟨skipWhileRunFlag_out pred l, skipWhileRunFlag_evals pred l,
    skipWhileRunFlag_skipped pred rest⟩


/-! ## Fixed windowing (C4)

`Series.prototype.window` (lines 570-606): the emitted cursor holds a
`windowIndex` counter starting at 0; each `moveNext` builds
`self.skip(windowIndex * period).take(period)`, stops when that sub-pipeline
is empty (the `none` probe with an always-true predicate), and otherwise
emits the pair `[windowIndex, window]` and increments the counter.
-/

/-- Modelled from the spec: `Take(n)` passes through the first `n` pairs and
terminates (spec section 4.C); the `TakeIterable` class itself is not under
`src`. -/
def seriesTake {α : Type} (l : List α) (numRows : Nat) : List α :=
  l.take numRows

/-- The pair list of the sub-pipeline `self.skip(k * period).take(period)`
that `window` builds for emission counter `k`. -/
def windowChunk {α : Type} (l : List α) (period k : Nat) : List α :=
  seriesTake (seriesSkip l (k * period)) period

/-- The emission loop of `Series.prototype.window` started at counter
`windowIndex`: while the chunk is non-empty (the `none()` probe), emit
`(windowIndex, chunk)` and advance the counter. -/
def seriesWindowFrom {α : Type} (l : List α) (period : Nat) (windowIndex : Nat) :
    List (Nat × List α) :=
  if h : (windowChunk l period windowIndex).isEmpty then []
  else (windowIndex, windowChunk l period windowIndex) ::
    seriesWindowFrom l period (windowIndex + 1)
termination_by l.length - windowIndex * period
decreasing_by
  rw [List.isEmpty_iff, windowChunk, seriesTake, seriesSkip, List.take_eq_nil_iff,
    not_or, List.drop_eq_nil_iff] at h
  have hpe : (windowIndex + 1) * period = windowIndex * period + period := by ring
  omega

/-- `Series.prototype.window`: the emission loop started at counter 0. -/
def seriesWindow {α : Type} (l : List α) (period : Nat) : List (Nat × List α) :=
  seriesWindowFrom l period 0

/-- The number of windows the claim predicts: the ceiling of `n / p` as the
natural-number expression `(n + p - 1) / p`. -/
def numWindows (n p : Nat) : Nat :=
  (n + p - 1) / p

theorem numWindows_zero (p : Nat) (hp : 0 < p) : numWindows 0 p = 0 := by
  have h : p - 1 < p := by omega
  simpa [numWindows] using Nat.div_eq_of_lt h

theorem numWindows_pos_eq (m p : Nat) (hm : 0 < m) (hp : 0 < p) :
    numWindows m p = (m - 1) / p + 1 := by
  have h : m + p - 1 = (m - 1) + p := by omega
  rw [numWindows, h, Nat.add_div_right _ hp]

theorem numWindows_rec (m p : Nat) (hm : 0 < m) (hp : 0 < p) :
    numWindows m p = numWindows (m - p) p + 1 := by
  rw [numWindows_pos_eq m p hm hp]
  rcases Nat.lt_or_ge p m with h | h
  · rw [numWindows_pos_eq (m - p) p (by omega) hp]
    have h2 : m - 1 = (m - p - 1) + p := by omega
    rw [h2, Nat.add_div_right _ hp]
  · have h0 : m - p = 0 := by omega
    rw [h0, numWindows_zero p hp, Nat.div_eq_of_lt (by omega : m - 1 < p)]

theorem seriesWindowFrom_empty_of_le {α : Type} (l : List α) (p wi : Nat)
    (h : l.length ≤ wi * p) : seriesWindowFrom l p wi = [] := by
  rw [seriesWindowFrom]
  have hchunk : windowChunk l p wi = [] := by
    rw [windowChunk, seriesTake, seriesSkip, List.drop_eq_nil_iff.mpr h, List.take_nil]
  simp [hchunk]

theorem seriesWindowFrom_eq_range' {α : Type} (l : List α) (p : Nat) (hp : 0 < p)
    (m : Nat) : ∀ wi, l.length - wi * p ≤ m →
    seriesWindowFrom l p wi
      = (List.range' wi (numWindows (l.length - wi * p) p)).map
          (fun k => (k, windowChunk l p k)) := by
  induction m with
  | zero =>
    intro wi h
    have hge : l.length ≤ wi * p := by omega
    have hn0 : l.length - wi * p = 0 := by omega
    rw [seriesWindowFrom_empty_of_le l p wi hge, hn0, numWindows_zero p hp]
    rfl
  | succ m ih =>
    intro wi h
    by_cases hc : (windowChunk l p wi).isEmpty
    · rw [List.isEmpty_iff, windowChunk, seriesTake, seriesSkip,
        List.take_eq_nil_iff] at hc
      rcases hc with hc | hc
      · omega
      · rw [List.drop_eq_nil_iff] at hc
        have hn0 : l.length - wi * p = 0 := by omega
        rw [seriesWindowFrom_empty_of_le l p wi hc, hn0, numWindows_zero p hp]
        rfl
    · have hne : windowChunk l p wi ≠ [] := by
        intro h0
        rw [h0] at hc
        exact hc rfl
      have hlt : wi * p < l.length := by
        by_contra hge
        push_neg at hge
        exact hne (by rw [windowChunk, seriesTake, seriesSkip,
          List.drop_eq_nil_iff.mpr hge, List.take_nil])
      have hpe : (wi + 1) * p = wi * p + p := by ring
      have hm2 : l.length - (wi + 1) * p ≤ m := by omega
      rw [seriesWindowFrom]
      rw [dif_neg hc, ih (wi + 1) hm2]
      have hrec : numWindows (l.length - wi * p) p
          = numWindows (l.length - (wi + 1) * p) p + 1 := by
        have := numWindows_rec (l.length - wi * p) p (by omega) hp
        have harith : l.length - wi * p - p = l.length - (wi + 1) * p := by omega
        rw [harith] at this
        exact this
      rw [hrec, List.range'_succ, List.map_cons]

theorem seriesWindowFrom_join {α : Type} (l : List α) (p : Nat) (hp : 0 < p)
    (m : Nat) : ∀ wi, l.length - wi * p ≤ m →
    ((seriesWindowFrom l p wi).map Prod.snd).flatten = l.drop (wi * p) := by
  induction m with
  | zero =>
    intro wi h
    have hge : l.length ≤ wi * p := by omega
    rw [seriesWindowFrom_empty_of_le l p wi hge, List.drop_eq_nil_iff.mpr hge]
    rfl
  | succ m ih =>
    intro wi h
    by_cases hc : (windowChunk l p wi).isEmpty
    · rw [List.isEmpty_iff, windowChunk, seriesTake, seriesSkip,
        List.take_eq_nil_iff] at hc
      rcases hc with hc | hc
      · omega
      · rw [List.drop_eq_nil_iff] at hc
        rw [seriesWindowFrom_empty_of_le l p wi hc, List.drop_eq_nil_iff.mpr hc]
        rfl
    · have hne : windowChunk l p wi ≠ [] := by
        intro h0
        rw [h0] at hc
        exact hc rfl
      have hlt : wi * p < l.length := by
        by_contra hge
        push_neg at hge
        exact hne (by rw [windowChunk, seriesTake, seriesSkip,
          List.drop_eq_nil_iff.mpr hge, List.take_nil])
      have hpe : (wi + 1) * p = wi * p + p := by ring
      have hm2 : l.length - (wi + 1) * p ≤ m := by omega
      rw [seriesWindowFrom]
      rw [dif_neg hc, List.map_cons, List.flatten_cons, ih (wi + 1) hm2]
      rw [windowChunk, seriesTake, seriesSkip]
      calc List.take p (List.drop (wi * p) l) ++ List.drop ((wi + 1) * p) l
          = List.take p (List.drop (wi * p) l) ++ List.drop p (List.drop (wi * p) l) := by
            rw [List.drop_drop, hpe]
        _ = List.drop (wi * p) l := List.take_append_drop p _

/-- C4: for a Series of `n > 0` pairs and a period `p > 0`, `window(p)` emits
exactly `ceil(n/p)` windows; in emission order the `k`-th emitted pair
carries index `k` and the sub-pipeline `skip(k*p).take(p)`; every window but
the last holds exactly `p` pairs; the last holds the remainder
`n - p*(numWindows-1)`, which is positive and at most `p`; and the windows
concatenate back to the source, so they are consecutive and
non-overlapping. -/
theorem c4_window_emission {α : Type} (l : List α) (p : Nat)
    (hp : 0 < p) (hn : 0 < l.length) :
    seriesWindow l p
      = (List.range (numWindows l.length p)).map (fun k => (k, windowChunk l p k))
    ∧ 0 < numWindows l.length p
    ∧ (∀ k, k + 1 < numWindows l.length p → (windowChunk l p k).length = p)
    ∧ (windowChunk l p (numWindows l.length p - 1)).length
        = l.length - (numWindows l.length p - 1) * p
    ∧ 0 < l.length - (numWindows l.length p - 1) * p
    ∧ l.length - (numWindows l.length p - 1) * p ≤ p
    ∧ ((seriesWindow l p).map Prod.snd).flatten = l := by
  have hdm := Nat.div_add_mod (l.length + p - 1) p
  have hr : (l.length + p - 1) % p < p := Nat.mod_lt _ hp
  have hWdef : numWindows l.length p = (l.length + p - 1) / p := rfl
  have hX : p * numWindows l.length p + (l.length + p - 1) % p = l.length + p - 1 := by
    rw [hWdef]
    exact hdm
  have hW : 0 < numWindows l.length p := by
    rcases Nat.eq_zero_or_pos (numWindows l.length p) with h0 | h
    · rw [h0, Nat.mul_zero] at hX
      omega
    · exact h
  have hsub : (numWindows l.length p - 1) * p = p * numWindows l.length p - p := by
    rw [Nat.sub_mul, Nat.one_mul, Nat.mul_comm]
  have hlast_lt : (numWindows l.length p - 1) * p < l.length := by
    rw [hsub]
    omega
  have hlen_le : l.length ≤ p * numWindows l.length p := by omega
  refine ⟨?_, hW, ?_, ?_, ?_, ?_, ?_⟩
  · rw [seriesWindow, List.range_eq_range',
      seriesWindowFrom_eq_range' l p hp (l.length - 0 * p) 0 (Nat.le_refl _)]
    simp
  · intro k hk
    have hk1 : k + 1 ≤ numWindows l.length p - 1 := by omega
    have hmul : (k + 1) * p ≤ (numWindows l.length p - 1) * p :=
      Nat.mul_le_mul_right p hk1
    have hke : (k + 1) * p = k * p + p := by ring
    rw [windowChunk, seriesTake, seriesSkip, List.length_take, List.length_drop]
    omega
  · rw [windowChunk, seriesTake, seriesSkip, List.length_take, List.length_drop]
    omega
  · omega
  · rw [hsub]
    omega
  · rw [seriesWindow]
    have := seriesWindowFrom_join l p hp (l.length - 0 * p) 0 (Nat.le_refl _)
    rw [this]
    simp

/-- C4 witness: the emission theorem applied to the concrete three-pair
Series `[(0,10),(1,20),(2,30)]` with period 2: two windows, the first with
two pairs, the last with the one remaining pair. -/
theorem c4_window_emission_witness :
    seriesWindow [((0 : Nat), (10 : Int)), (1, 20), (2, 30)] 2
      = (List.range (numWindows 3 2)).map
          (fun k => (k, windowChunk [((0 : Nat), (10 : Int)), (1, 20), (2, 30)] 2 k))
    ∧ 0 < numWindows 3 2
    ∧ (∀ k, k + 1 < numWindows 3 2 →
        (windowChunk [((0 : Nat), (10 : Int)), (1, 20), (2, 30)] 2 k).length = 2)
    ∧ (windowChunk [((0 : Nat), (10 : Int)), (1, 20), (2, 30)] 2 (numWindows 3 2 - 1)).length
        = 3 - (numWindows 3 2 - 1) * 2
    ∧ 0 < 3 - (numWindows 3 2 - 1) * 2
    ∧ 3 - (numWindows 3 2 - 1) * 2 ≤ 2
    ∧ ((seriesWindow [((0 : Nat), (10 : Int)), (1, 20), (2, 30)] 2).map Prod.snd).flatten
        = [((0 : Nat), (10 : Int)), (1, 20), (2, 30)] :=
  c4_window_emission [((0 : Nat), (10 : Int)), (1, 20), (2, 30)] 2
    (by decide) (by decide)

/-! ## Parse coercions (C6)

`Series.prototype.parseInts` (lines 700-717) and `parseFloats` (lines
722-739) each call `self.select` with a selector that passes `undefined`
through, asserts the value is a string (throwing a type-mismatch error
otherwise), maps the empty string to `undefined`, and otherwise applies the
JavaScript `parseInt`/`parseFloat` builtin.  `Series.prototype.select`
(lines 320-327) wraps the pipeline in a `SelectValuesIterable` and performs
no evaluation itself.
-/

/-- A scalar JavaScript value as the parse family sees it: a string, a
number (modelled as a rational), the number `NaN`, or a boolean standing for
any other non-string value. -/
inductive SVal where
  | str (s : String)
  | num (q : ℚ)
  | nan
  | boolV (b : Bool)
  deriving DecidableEq, Repr

/-- Base-10 value of a list of digit characters. -/
def digitsVal (cs : List Char) : Nat :=
  cs.foldl (fun acc c => acc * 10 + (c.toNat - 48)) 0

/-- Longest leading digit run of the character list, as a number; `none`
when there is no leading digit (the NaN outcome). -/
def jsParseIntCore (cs : List Char) : Option Nat :=
  let ds := cs.takeWhile Char.isDigit
  if ds.isEmpty then none else some (digitsVal ds)

/-- Sign dispatch of the `parseInt` model over the character list.  The
character codes 45 and 43 are the minus and plus signs. -/
def jsParseIntChars : List Char → Option Int
  | [] => none
  | c :: rest =>
    if c = Char.ofNat 45 then (jsParseIntCore rest).map (fun n => -(n : Int))
    else if c = Char.ofNat 43 then (jsParseIntCore rest).map (fun n => (n : Int))
    else (jsParseIntCore (c :: rest)).map (fun n => (n : Int))

/-- Model of the JavaScript `parseInt` builtin on trimmed decimal input: an
optional sign followed by the longest leading digit run; `none` models NaN. -/
def jsParseInt (s : String) : Option Int :=
  jsParseIntChars s.data

/-- Fractional value of a digit run read after the decimal point. -/
def fracVal (cs : List Char) : ℚ :=
  (digitsVal cs : ℚ) / ((10 : ℚ) ^ cs.length)

/-- Unsigned part of the `parseFloat` model: leading digits, an optional
point (character code 46) and further digits; `none` models NaN. -/
def jsParseFloatCore (cs : List Char) : Option ℚ :=
  let intPart := cs.takeWhile Char.isDigit
  let rest := cs.drop intPart.length
  match rest with
  | c :: fracCs =>
    if c = Char.ofNat 46 then
      let fracPart := fracCs.takeWhile Char.isDigit
      if intPart.isEmpty && fracPart.isEmpty then none
      else some ((digitsVal intPart : ℚ) + fracVal fracPart)
    else if intPart.isEmpty then none else some ((digitsVal intPart : ℚ))
  | [] => if intPart.isEmpty then none else some ((digitsVal intPart : ℚ))

/-- Sign dispatch of the `parseFloat` model over the character list. -/
def jsParseFloatChars : List Char → Option ℚ
  | [] => none
  | c :: rest =>
    if c = Char.ofNat 45 then (jsParseFloatCore rest).map (fun q => -q)
    else if c = Char.ofNat 43 then (jsParseFloatCore rest).map (fun q => q)
    else (jsParseFloatCore (c :: rest)).map (fun q => q)

/-- Model of the JavaScript `parseFloat` builtin on trimmed decimal input. -/
def jsParseFloat (s : String) : Option ℚ :=
  jsParseFloatChars s.data

/-- The selector `parseInts` passes to `select`: `undefined` passes through,
a non-string throws the type-mismatch assertion, the empty string becomes
`undefined`, any other string is handed to `parseInt`. -/
def parseIntsSelector (v : Option SVal) : Except JsErr (Option SVal) :=
  match v with
  | none => .ok none
  | some (SVal.str s) =>
    if s.length = 0 then .ok none
    else .ok (some (match jsParseInt s with
      | some n => SVal.num (n : ℚ)
      | none => SVal.nan))
  | some _ => .error .typeMismatch

/-- The selector `parseFloats` passes to `select`, analogous to
`parseIntsSelector` with the `parseFloat` builtin. -/
def parseFloatsSelector (v : Option SVal) : Except JsErr (Option SVal) :=
  match v with
  | none => .ok none
  | some (SVal.str s) =>
    if s.length = 0 then .ok none
    else .ok (some (match jsParseFloat s with
      | some q => SVal.num q
      | none => SVal.nan))
  | some _ => .error .typeMismatch

/-- Modelled from the spec: `SelectValue(fn)` replaces each value with
`fn(value, index)` and keeps the index, lazily (spec section 4.C); the
`SelectValuesIterable` class is not under `src`.  Each output element is a
pending computation that runs, and may throw, only when the pipeline is
driven. -/
def selectValuesLazy {I V W : Type} (f : V → Except JsErr W) :
    List (I × V) → List (Except JsErr (I × W))
  | [] => []
  | p :: rest => (f p.2).map (fun w => (p.1, w)) :: selectValuesLazy f rest

/-- `Series.prototype.parseInts`: the lazily mapped pipeline. -/
def seriesParseInts {I : Type} (l : List (I × Option SVal)) :
    List (Except JsErr (I × Option SVal)) :=
  selectValuesLazy parseIntsSelector l

/-- `Series.prototype.parseFloats`: the lazily mapped pipeline. -/
def seriesParseFloats {I : Type} (l : List (I × Option SVal)) :
    List (Except JsErr (I × Option SVal)) :=
  selectValuesLazy parseFloatsSelector l

/-- Driving a lazily mapping pipeline to exhaustion: the pairs emitted
before any failure, together with the error that aborted iteration when one
occurred. -/
def driveTrace {E P : Type} : List (Except E P) → List P × Option E
  | [] => ([], none)
  | Except.error e :: _ => ([], some e)
  | Except.ok p :: rest =>
    let r := driveTrace rest
    (p :: r.1, r.2)

theorem selectValuesLazy_eq_map {I V W : Type} (f : V → Except JsErr W)
    (l : List (I × V)) :
    selectValuesLazy f l = l.map (fun p => (f p.2).map (fun w => (p.1, w))) := by
  induction l with
  | nil => rfl
  | cons p rest ih => simp [selectValuesLazy, ih]

theorem driveTrace_selectValuesLazy_ok {I V W : Type} (f : V → Except JsErr W)
    (g : V → W) (l : List (I × V)) (h : ∀ p ∈ l, f p.2 = .ok (g p.2)) :
    driveTrace (selectValuesLazy f l) = (l.map (fun p => (p.1, g p.2)), none) := by
  induction l with
  | nil => rfl
  | cons p rest ih =>
    have hp := h p (List.mem_cons_self p rest)
    have hrest := ih (fun q hq => h q (List.mem_cons_of_mem p hq))
    simp [selectValuesLazy, hp, Except.map, driveTrace, hrest]

theorem driveTrace_selectValuesLazy_error {I V W : Type} (f : V → Except JsErr W)
    (e : JsErr) (pre : List (I × V)) (j : I) (v : V) (post : List (I × V))
    (hpre : ∀ p ∈ pre, ∃ r, f p.2 = .ok r) (hv : f v = .error e) :
    (driveTrace (selectValuesLazy f (pre ++ (j, v) :: post))).2 = some e := by
  induction pre with
  | nil => simp [selectValuesLazy, hv, Except.map, driveTrace]
  | cons p rest ih =>
    obtain ⟨r, hr⟩ := hpre p (List.mem_cons_self p rest)
    have := ih (fun q hq => hpre q (List.mem_cons_of_mem p hq))
    simp [selectValuesLazy, hr, Except.map, driveTrace, this]

theorem all_digits_takeWhile (cs : List Char) (h : cs.all Char.isDigit) :
    cs.takeWhile Char.isDigit = cs := by
  induction cs with
  | nil => rfl
  | cons c rest ih =>
    simp only [List.all_cons, Bool.and_eq_true] at h
    simp [List.takeWhile_cons, h.1, ih h.2]

theorem jsParseInt_digits (s : String) (hne : s.data ≠ [])
    (hdig : s.data.all Char.isDigit) :
    jsParseInt s = some (digitsVal s.data) := by
  rw [jsParseInt]
  cases hs : s.data with
  | nil => exact absurd hs hne
  | cons c rest =>
    rw [hs] at hdig
    simp only [List.all_cons, Bool.and_eq_true] at hdig
    have h45 : ¬ c = Char.ofNat 45 := by
      intro hEq
      rw [hEq] at hdig
      exact absurd hdig.1 (by decide)
    have h43 : ¬ c = Char.ofNat 43 := by
      intro hEq
      rw [hEq] at hdig
      exact absurd hdig.1 (by decide)
    have hall : (c :: rest).all Char.isDigit := by
      simp [List.all_cons, hdig.1, hdig.2]
    rw [jsParseIntChars, if_neg h45, if_neg h43, jsParseIntCore]
    simp only [all_digits_takeWhile (c :: rest) hall]
    simp

theorem jsParseFloat_digits (s : String) (hne : s.data ≠ [])
    (hdig : s.data.all Char.isDigit) :
    jsParseFloat s = some ((digitsVal s.data : ℚ)) := by
  rw [jsParseFloat]
  cases hs : s.data with
  | nil => exact absurd hs hne
  | cons c rest =>
    rw [hs] at hdig
    simp only [List.all_cons, Bool.and_eq_true] at hdig
    have h45 : ¬ c = Char.ofNat 45 := by
      intro hEq
      rw [hEq] at hdig
      exact absurd hdig.1 (by decide)
    have h43 : ¬ c = Char.ofNat 43 := by
      intro hEq
      rw [hEq] at hdig
      exact absurd hdig.1 (by decide)
    have hall : (c :: rest).all Char.isDigit := by
      simp [List.all_cons, hdig.1, hdig.2]
    rw [jsParseFloatChars, if_neg h45, if_neg h43, jsParseFloatCore]
    simp only [all_digits_takeWhile (c :: rest) hall]
    simp [List.drop_length]

/-- C6: `parseInts` and `parseFloats` build an element-wise lazy pipeline
(one pending entry per input pair, no selector run at construction); an
absent value passes through unchanged, the empty string becomes absent, a
non-empty digit string becomes its parsed number, every non-string value
turns its entry into a type-mismatch error; when all values are absent or
strings, driving yields the mapped pairs with indexes preserved, and a
non-string value surfaces the error only when driving reaches it. -/
theorem c6_parse_elementwise {I : Type} (l : List (I × Option SVal)) (s : String)
    (g : Option SVal → Option SVal) (pre post : List (I × Option SVal)) (j : I)
    (v : SVal)
    (hs : s.data ≠ [] ∧ s.data.all Char.isDigit)
    (hg : ∀ p ∈ l, parseIntsSelector p.2 = .ok (g p.2))
    (hpre : ∀ p ∈ pre, ∃ r, parseIntsSelector p.2 = .ok r)
    (hv : ∀ q : String, v ≠ SVal.str q) :
    seriesParseInts l = l.map (fun p => (parseIntsSelector p.2).map (fun w => (p.1, w)))
    ∧ (seriesParseInts l).length = l.length
    ∧ (seriesParseFloats l).length = l.length
    ∧ parseIntsSelector none = .ok none
    ∧ parseFloatsSelector none = .ok none
    ∧ parseIntsSelector (some (SVal.str "")) = .ok none
    ∧ parseFloatsSelector (some (SVal.str "")) = .ok none
    ∧ parseIntsSelector (some (SVal.str s)) = .ok (some (SVal.num (digitsVal s.data)))
    ∧ parseFloatsSelector (some (SVal.str s)) = .ok (some (SVal.num (digitsVal s.data)))
    ∧ parseIntsSelector (some v) = .error .typeMismatch
    ∧ parseFloatsSelector (some v) = .error .typeMismatch
    ∧ driveTrace (seriesParseInts l) = (l.map (fun p => (p.1, g p.2)), none)
    ∧ (driveTrace (seriesParseInts (pre ++ (j, some v) :: post))).2 = some .typeMismatch := by
  obtain ⟨hne, hdig⟩ := hs
  have hlen : ¬ s.length = 0 := by
    have hd : s.data.length ≠ 0 := fun h => hne (List.length_eq_zero.mp h)
    have he : s.length = s.data.length := rfl
    rw [he]
    exact hd
  have hbadInt : parseIntsSelector (some v) = .error .typeMismatch := by
    cases v with
    | str q => exact absurd rfl (hv q)
    | num q => rfl
    | nan => rfl
    | boolV b => rfl
  have hbadFloat : parseFloatsSelector (some v) = .error .typeMismatch := by
    cases v with
    | str q => exact absurd rfl (hv q)
    | num q => rfl
    | nan => rfl
    | boolV b => rfl
  refine ⟨selectValuesLazy_eq_map parseIntsSelector l, ?_, ?_, rfl, rfl, rfl, rfl,
    ?_, ?_, hbadInt, hbadFloat, ?_, ?_⟩
  · rw [seriesParseInts, selectValuesLazy_eq_map, List.length_map]
  · rw [seriesParseFloats, selectValuesLazy_eq_map, List.length_map]
  · simp only [parseIntsSelector, if_neg hlen, jsParseInt_digits s hne hdig]
    norm_cast
  · simp only [parseFloatsSelector, if_neg hlen, jsParseFloat_digits s hne hdig]
  · exact driveTrace_selectValuesLazy_ok parseIntsSelector g l hg
  · exact driveTrace_selectValuesLazy_error parseIntsSelector .typeMismatch
      pre j (some v) post hpre hbadInt

/-- C6 witness: the parse theorem applied to a concrete pipeline holding an
absent value and the strings "1", "100" and "5", the digit string "42", a
good prefix, and the non-string trailing value true. -/
theorem c6_parse_elementwise_witness :
    driveTrace (seriesParseInts
        [((0 : Nat), some (SVal.str "1")), (1, some (SVal.str "100")),
          (2, none), (3, some (SVal.str "5"))])
      = ([((0 : Nat), some (SVal.num 1)), (1, some (SVal.num 100)),
          (2, none), (3, some (SVal.num 5))], none)
    ∧ parseIntsSelector (some (SVal.str "42")) = .ok (some (SVal.num (digitsVal "42".data)))
    ∧ (driveTrace (seriesParseInts
        [((0 : Nat), some (SVal.str "7")), (1, some (SVal.boolV true))])).2
      = some .typeMismatch := by
  have h := c6_parse_elementwise
    [((0 : Nat), some (SVal.str "1")), (1, some (SVal.str "100")),
      (2, none), (3, some (SVal.str "5"))]
    "42"
    (fun w => match w with
      | some (SVal.str q) =>
        if q.length = 0 then none
        else some (match jsParseInt q with
          | some n => SVal.num (n : ℚ)
          | none => SVal.nan)
      | other => other)
    [((0 : Nat), some (SVal.str "7"))] [] 1 (SVal.boolV true)
    (by decide)
    (by
      intro p hp
      fin_cases hp <;> rfl)
    (by
      intro p hp
      fin_cases hp
      exact ⟨some (SVal.num 7), rfl⟩)
    (by intro q hq; cases hq)
  refine ⟨?_, h.2.2.2.2.2.2.2.1, h.2.2.2.2.2.2.2.2.2.2.2.2⟩
  have h12 := h.2.2.2.2.2.2.2.2.2.2.2.1
  rw [h12]
  rfl

/-! ## Restart law (C3)

`Series.prototype.getIterator` (lines 154-157) delegates to the stored
iterable's `getIterator`; a consumption drives that fresh cursor to
exhaustion.  Array-backed sources replay the same array on every
`getIterator` call, while a user-supplied generator function
(`createValuesIterable`, lines 60-75, accepts a bare function as the
iterable) is re-invoked on every consumption and may well yield a different
on later calls (the single-shot case).  Each core operator's
`getIterator` obtains exactly one fresh child cursor, so the `k`-th
consumption of an operator pipeline drives the `k`-th consumption of its
child.  A pipeline is modelled syntactically; consumption is indexed by the
ordinal of the `getIterator` call.
-/

/-- Pipeline syntax over pair type `P`: an array-backed source
(`ArrayIterable`), a user generator function (modelled by the pair sequence
produced at each call ordinal), and the core operator iterables built by
`skip`, `take`, `skipWhile`, `takeWhile`, `where`, `selectPairs` and
`reverse` (series.js lines 215-341 and 1105-1126). -/
inductive Pipe (P : Type) where
  | fromArray (pairs : List P)
  | gen (g : Nat → List P)
  | skipOp (numRows : Nat) (src : Pipe P)
  | takeOp (numRows : Nat) (src : Pipe P)
  | skipWhileOp (pred : P → Bool) (src : Pipe P)
  | takeWhileOp (pred : P → Bool) (src : Pipe P)
  | whereOp (pred : P → Bool) (src : Pipe P)
  | selectPairsOp (f : P → P) (src : Pipe P)
  | reverseOp (src : Pipe P)

/-- The pair sequence produced by driving to exhaustion the cursor returned
by the `k`-th call to `getIterator` on the pipeline.  `skipWhile` runs the
in-source `SkipWhileIterator` state machine; the remaining operator
iterables are modelled from spec section 4.C (their classes are not under
`src`); `reverse` materializes its child (lines 1105-1126). -/
def consumeAt {P : Type} : Pipe P → Nat → List P
  | .fromArray pairs, _ => pairs
  | .gen g, k => g k
  | .skipOp n src, k => (consumeAt src k).drop n
  | .takeOp n src, k => (consumeAt src k).take n
  | .skipWhileOp pred src, k => (skipWhileRunFlag pred (consumeAt src k) false).1
  | .takeWhileOp pred src, k => (consumeAt src k).takeWhile pred
  | .whereOp pred src, k => (consumeAt src k).filter pred
  | .selectPairsOp f src, k => (consumeAt src k).map f
  | .reverseOp src, k => (consumeAt src k).reverse

/-- A pipeline built from arrays and the core operators alone, with no
user-supplied generator anywhere inside. -/
def generatorFree {P : Type} : Pipe P → Bool
  | .fromArray _ => true
  | .gen _ => false
  | .skipOp _ src => generatorFree src
  | .takeOp _ src => generatorFree src
  | .skipWhileOp _ src => generatorFree src
  | .takeWhileOp _ src => generatorFree src
  | .whereOp _ src => generatorFree src
  | .selectPairsOp _ src => generatorFree src
  | .reverseOp src => generatorFree src

/-- C3: for every pipeline built from arrays and the core operators (no
single-shot user generator anywhere), any two independent consumptions -
the cursors from the `j`-th and `k`-th `getIterator` calls, each driven to
exhaustion - produce identical pair sequences. -/
theorem c3_restart_law {P : Type} (p : Pipe P) (hp : generatorFree p = true)
    (j k : Nat) : consumeAt p j = consumeAt p k := by
  induction p with
  | fromArray pairs => rfl
  | gen g => exact absurd hp (by simp [generatorFree])
  | skipOp n src ih => simp only [consumeAt, ih (by simpa [generatorFree] using hp)]
  | takeOp n src ih => simp only [consumeAt, ih (by simpa [generatorFree] using hp)]
  | skipWhileOp pred src ih => simp only [consumeAt, ih (by simpa [generatorFree] using hp)]
  | takeWhileOp pred src ih => simp only [consumeAt, ih (by simpa [generatorFree] using hp)]
  | whereOp pred src ih => simp only [consumeAt, ih (by simpa [generatorFree] using hp)]
  | selectPairsOp f src ih => simp only [consumeAt, ih (by simpa [generatorFree] using hp)]
  | reverseOp src ih => simp only [consumeAt, ih (by simpa [generatorFree] using hp)]

/-- C3 witness: the restart law applied to the concrete pipeline
`skip(1)` over the array `[(0,10),(1,20),(2,30)]`, comparing the first and
second consumptions. -/
theorem c3_restart_law_witness :
    generatorFree (Pipe.skipOp 1 (Pipe.fromArray [((0 : Nat), (10 : Int)), (1, 20), (2, 30)])) = true
    ∧ consumeAt (Pipe.skipOp 1 (Pipe.fromArray [((0 : Nat), (10 : Int)), (1, 20), (2, 30)])) 0
      = consumeAt (Pipe.skipOp 1 (Pipe.fromArray [((0 : Nat), (10 : Int)), (1, 20), (2, 30)])) 1 :=
  ⟨rfl, c3_restart_law
    (Pipe.skipOp 1 (Pipe.fromArray [((0 : Nat), (10 : Int)), (1, 20), (2, 30)]))
    rfl 0 1⟩

/-! ## DataFrame.select and eager column inference (C9)

`DataFrame.prototype.select` (lines 2676-2694) wraps the frame in a
`SelectIterator` whose mapping runs the user selector, throws unless the
result is an object (`Object.isObject`), and keeps the input index; it then
calls `new DataFrame({iterable})` with no `columnNames`.  The DataFrame
constructor (lines 2218-2234) therefore calls
`determineColumnNamesFromPairsIterable` (lines 2173-2201) with
`considerAllRows` unset, which obtains a cursor and consumes the FIRST pair
during construction to read the new row's field names.
-/

/-- Classification of a row selector's result by `Object.isObject`: an
object (a record of the output row type) or any non-object value. -/
inductive SelRes (R W : Type) where
  | isObj (r : R)
  | notObj (w : W)

/-- Modelled from the spec: the one-to-one `SelectPair`-style operator
iterable maps each pair lazily (spec section 4.C; the `SelectIterator`
class is not under `src`).  Each output element is a pending computation
run only when pulled. -/
def selectPairsLazyE {I R S : Type} (f : I × R → Except JsErr S) :
    List (I × R) → List (Except JsErr S)
  | [] => []
  | p :: rest => f p :: selectPairsLazyE f rest

/-- The mapping `DataFrame.prototype.select` installs: run the selector on
(row, index), throw unless the result is an object, keep the input index. -/
def dfSelectLazy {I R R' W : Type} (selector : R → I → SelRes R' W) :
    List (I × R) → List (Except JsErr (I × R')) :=
  selectPairsLazyE (fun p =>
    match selector p.2 p.1 with
    | .isObj r => .ok (p.1, r)
    | .notObj _ => .error .selectNotObject)

/-- `determineColumnNamesFromPairsIterable` with `considerAllRows` unset, as
run by the constructor over the lazily mapped iterable: consume the first
pair (forcing its pending computation, hence possibly throwing) and read
the keys of its value; no pairs means no columns. -/
def determineColumnNamesFirst {I R' : Type} (keysOf : R' → List String)
    (lazyPairs : List (Except JsErr (I × R'))) : Except JsErr (List String) :=
  match lazyPairs with
  | [] => .ok []
  | e :: _ => e.map (fun p => keysOf p.2)

/-- `DataFrame.prototype.select`: build the lazily mapped iterable, then
construct the new frame; with no explicit column names the constructor
infers them by consuming the first pair, so construction itself throws when
that first pending computation does. -/
def dataFrameSelect {I R R' W : Type} (keysOf : R' → List String)
    (selector : R → I → SelRes R' W) (df : DataFrameD I R) :
    Except JsErr (List String × List (Except JsErr (I × R'))) :=
  let lazy := dfSelectLazy selector df.pairs
  (determineColumnNamesFirst keysOf lazy).map (fun cols => (cols, lazy))

theorem driveTrace_lazyE_ok {I R S : Type} (f : I × R → Except JsErr S)
    (g : I × R → S) (l : List (I × R)) (h : ∀ p ∈ l, f p = .ok (g p)) :
    driveTrace (selectPairsLazyE f l) = (l.map g, none) := by
  induction l with
  | nil => rfl
  | cons p rest ih =>
    have hp := h p (List.mem_cons_self p rest)
    have hrest := ih (fun q hq => h q (List.mem_cons_of_mem p hq))
    simp [selectPairsLazyE, hp, driveTrace, hrest]

theorem driveTrace_lazyE_error {I R S : Type} (f : I × R → Except JsErr S)
    (g : I × R → S) (e : JsErr) (pre : List (I × R)) (b : I × R)
    (post : List (I × R)) (hpre : ∀ p ∈ pre, f p = .ok (g p))
    (hb : f b = .error e) :
    driveTrace (selectPairsLazyE f (pre ++ b :: post)) = (pre.map g, some e) := by
  induction pre with
  | nil => simp [selectPairsLazyE, hb, driveTrace]
  | cons p rest ih =>
    have hp := hpre p (List.mem_cons_self p rest)
    have := ih (fun q hq => hpre q (List.mem_cons_of_mem p hq))
    simp [selectPairsLazyE, hp, driveTrace, this]

/-- C9 counterexample: on a one-row frame whose selector returns a
non-object for that first row, the `select` call itself throws - the
constructor consumes the first pair to infer column names - contradicting
the claim that constructing the selection never fails. -/
theorem c9_select_construction_can_fail :
    dataFrameSelect (fun r : List (String × Int) => r.map Prod.fst)
      (fun _ _ => SelRes.notObj (42 : Int))
      { columnNames := ["A"], pairs := [((0 : Nat), [("A", (1 : Int))])] }
      = .error .selectNotObject := rfl

/-- C9 (amended): `DataFrame.select` checks the row shape lazily except on
the first row: construction infers column names by evaluating the selector
on the first pair, so it throws exactly when the frame is non-empty and the
first selection is a non-object; otherwise construction succeeds with the
lazily mapped pipeline, and driving that pipeline emits, for each row
before the first non-object selection, a pair keeping the input index and
carrying the selector result, then raises the shape error there; when every
selection is an object the drive completes with all mapped pairs. -/
theorem c9_dataFrame_select_amended {I R R' W : Type} (keysOf : R' → List String)
    (selector : R → I → SelRes R' W) (df : DataFrameD I R) :
    (df.pairs = [] → dataFrameSelect keysOf selector df = .ok ([], []))
    ∧ (∀ i0 r0 rest w, df.pairs = (i0, r0) :: rest → selector r0 i0 = .notObj w →
        dataFrameSelect keysOf selector df = .error .selectNotObject)
    ∧ (∀ g : R → I → R', (∀ p ∈ df.pairs, selector p.2 p.1 = .isObj (g p.2 p.1)) →
        (∃ cols, dataFrameSelect keysOf selector df
          = .ok (cols, dfSelectLazy selector df.pairs))
        ∧ driveTrace (dfSelectLazy selector df.pairs)
          = (df.pairs.map (fun p => (p.1, g p.2 p.1)), none))
    ∧ (∀ (g : R → I → R') (pre : List (I × R)) (b : I × R) (post : List (I × R)) (w : W),
        df.pairs = pre ++ b :: post →
        (∀ p ∈ pre, selector p.2 p.1 = .isObj (g p.2 p.1)) →
        selector b.2 b.1 = .notObj w →
        driveTrace (dfSelectLazy selector df.pairs)
          = (pre.map (fun p => (p.1, g p.2 p.1)), some .selectNotObject)) := by
  refine ⟨?_, ?_, ?_, ?_⟩
  · intro h
    simp [dataFrameSelect, h, dfSelectLazy, selectPairsLazyE,
      determineColumnNamesFirst, Except.map]
  · intro i0 r0 rest w hpairs hsel
    simp [dataFrameSelect, hpairs, dfSelectLazy, selectPairsLazyE,
      determineColumnNamesFirst, hsel, Except.map]
  · intro g hg
    constructor
    · cases hpairs : df.pairs with
      | nil =>
        exact ⟨[], by simp [dataFrameSelect, hpairs, dfSelectLazy,
          selectPairsLazyE, determineColumnNamesFirst, Except.map]⟩
      | cons p rest =>
        have hp := hg p (by rw [hpairs]; exact List.mem_cons_self p rest)
        refine ⟨keysOf (g p.2 p.1), ?_⟩
        simp [dataFrameSelect, hpairs, dfSelectLazy, selectPairsLazyE,
          determineColumnNamesFirst, hp, Except.map]
    · exact driveTrace_lazyE_ok _ (fun p => (p.1, g p.2 p.1)) df.pairs
        (fun p hp => by simp [hg p hp])
  · intro g pre b post w hpairs hpre hb
    rw [hpairs, dfSelectLazy]
    exact driveTrace_lazyE_error _ (fun p => (p.1, g p.2 p.1)) .selectNotObject
      pre b post (fun p hp => by simp [hpre p hp]) (by simp [hb])

/-- C9 witness: the amended theorem applied to a concrete two-row frame
whose selector transforms the first row into an object and returns the
non-object 7 on the second row: construction succeeds and the drive emits
the first mapped pair before raising the shape error. -/
theorem c9_dataFrame_select_amended_witness :
    driveTrace (dfSelectLazy
        (fun (r : List (String × Int)) (i : Nat) =>
          if i = 1 then SelRes.notObj (7 : Int)
          else SelRes.isObj (r.map (fun f => (f.1, f.2 + 1))))
        ([((0 : Nat), [("A", (1 : Int))]), (1, [("A", 2)])]))
      = ([((0 : Nat), [("A", (2 : Int))])], some JsErr.selectNotObject) := by
  have h := (c9_dataFrame_select_amended
    (fun r : List (String × Int) => r.map Prod.fst)
    (fun (r : List (String × Int)) (i : Nat) =>
      if i = 1 then SelRes.notObj (7 : Int)
      else SelRes.isObj (r.map (fun f => (f.1, f.2 + 1))))
    { columnNames := ["A"],
      pairs := [((0 : Nat), [("A", (1 : Int))]), (1, [("A", 2)])] }).2.2.2
    (fun r _ => r.map (fun f => (f.1, f.2 + 1)))
    [((0 : Nat), [("A", (1 : Int))])] ((1 : Nat), [("A", (2 : Int))]) [] 7
    rfl
    (by
      intro p hp
      fin_cases hp
      rfl)
    rfl
  simpa using h

/-! ## Inner join and the DataFrame constructor (C1)

`Series.prototype.join` (lines 1783-1809) materializes both sides with
`toPairs`, runs the external linq `join` with the key selectors applied to
(value, index) and the result selector to the two values, and then returns
`new DataFrame({ values: joined })`.  The DataFrame constructor
(lines 2206-2466) dispatches on `config.iterable`, then on
`!config.rows && !config.columns`, and only afterwards on
`rows`/`columns`/`columnNames`/`index`; it never reads a `values` field, so
a `values`-only configuration takes the empty branch at lines 2236-2242.
-/

/-- Rows payload of a DataFrame configuration: row arrays (used with
explicit column names, converted by `convertRowsToObjects`) or record
objects.  A generator-function payload is modelled by the list its produced
iterator yields, since the constructor drives exactly one such iterator per
cursor. -/
inductive RowsPayload (R Cell : Type) where
  | arrays (rowArrays : List (List Cell))
  | records (recordRows : List R)

/-- The configuration object accepted by the DataFrame constructor.  An
index supplied as an array or as a Series is modelled by the list of index
values it yields.  The `values` field exists so that callers (such as
`Series.join`) can pass it: the constructor never reads it. -/
structure DfConfig (R Cell : Type) where
  iterable : Option (List (Int × R))
  columnNames : Option (List String)
  rows : Option (RowsPayload R Cell)
  columns : Option (List (String × List Cell))
  values : Option (List R)
  index : Option (List Int)
  considerAllRows : Bool

/-- First-occurrence deduplication, as the linq `distinct` used by the
column-name inference behaves. -/
def distinctKeepFirst : List String → List String
  | [] => []
  | x :: rest => x :: distinctKeepFirst (rest.filter (fun y => y != x))
termination_by l => l.length
decreasing_by
  have hle := List.length_filter_le (fun y => y != x) rest
  simp only [List.length_cons]
  omega

/-- `determineColumnNamesFromPairsIterable` (lines 2173-2201) over a strict
pair list: with `considerAllRows` the distinct union of all value keys,
otherwise the keys of the first value, none for an empty iterable. -/
def determineColumnNamesFromPairsList {R : Type} (keysOf : R → List String)
    (considerAllRows : Bool) (pairs : List (Int × R)) : List String :=
  if considerAllRows then distinctKeepFirst ((pairs.map (fun p => keysOf p.2)).flatten)
  else
    match pairs with
    | [] => []
    | p :: _ => keysOf p.2

/-- `determineColumnNamesFromObjectRows` (lines 2100-2135): the same
inference over bare record rows. -/
def determineColumnNamesFromRecords {R : Type} (keysOf : R → List String)
    (considerAllRows : Bool) (rows : List R) : List String :=
  if considerAllRows then distinctKeepFirst ((rows.map keysOf).flatten)
  else
    match rows with
    | [] => []
    | r :: _ => keysOf r

/-- The auto-index `CountIterator` zipped against `n` values: 0, 1, ... as
JavaScript numbers. -/
def countIndexList (n : Nat) : List Int :=
  (List.range n).map Int.ofNat

/-- `PairIterator`: zip an index stream (the supplied one, or the counter)
with a value stream, terminating when either side exhausts. -/
def pairIndexWith {R : Type} (index : Option (List Int)) (values : List R) :
    List (Int × R) :=
  match index with
  | some idx => idx.zip values
  | none => (countIndexList values.length).zip values

/-- Modelled from the spec: `Multi(iters)` zips the column cursors into one
row per position and terminates when any column exhausts (spec section
4.B); the `MultiIterator` class is not under `src`. -/
def zipColumns {Cell : Type} (cols : List (String × List Cell)) : List (List Cell) :=
  let arrays := cols.map Prod.snd
  let n := ((arrays.map List.length).min?).getD 0
  (List.range n).map (fun i => arrays.filterMap (fun a => a.get? i))

/-- The DataFrame constructor (lines 2206-2466).  Dispatch order is the
source's: absent configuration, then the `iterable` branch (column names
given or inferred from the first pair), then the
`!config.rows && !config.columns` empty branch - which never consults
`config.values` - and finally the `rows`/`columns` handling, with
`convertRowsToObjects` abstracted by `mkRecord` and construction-time
assertion failures surfacing as `invalidArgument`. -/
def dataFrameCtor {R Cell : Type} (keysOf : R → List String)
    (mkRecord : List String → List Cell → R)
    (config : Option (DfConfig R Cell)) : Except JsErr (DataFrameD Int R) :=
  match config with
  | none => .ok { columnNames := [], pairs := [] }
  | some cfg =>
    match cfg.iterable with
    | some pairs =>
      let columnNames :=
        match cfg.columnNames with
        | some names => names
        | none => determineColumnNamesFromPairsList keysOf cfg.considerAllRows pairs
      .ok { columnNames := columnNames, pairs := pairs }
    | none =>
      if cfg.rows.isNone ∧ cfg.columns.isNone then
        .ok { columnNames := cfg.columnNames.getD [], pairs := [] }
      else
        match cfg.columnNames, cfg.rows, cfg.columns with
        | some names, some rowsPayload, _ =>
          let valueStream :=
            match rowsPayload with
            | .arrays rowArrays => rowArrays.map (mkRecord names)
            | .records recordRows => recordRows
          .ok { columnNames := names, pairs := pairIndexWith cfg.index valueStream }
        | some _, none, _ => .error .invalidArgument
        | none, some (.records recordRows), _ =>
          let names := determineColumnNamesFromRecords keysOf cfg.considerAllRows recordRows
          .ok { columnNames := names, pairs := pairIndexWith cfg.index recordRows }
        | none, some (.arrays _), _ => .error .invalidArgument
        | none, none, some cols =>
          let names := cols.map Prod.fst
          let valueStream := (zipColumns cols).map (mkRecord names)
          .ok { columnNames := names, pairs := pairIndexWith cfg.index valueStream }
        | none, none, none => .ok { columnNames := [], pairs := [] }

/-- Modelled behavior of the external linq `join` operator: for each outer
element in order, emit the result selector applied to it and every inner
element with an equal key, in inner order - the hash join the library
implements, equivalent to a nested loop grouped by the outer sequence. -/
def linqJoin {A B K C : Type} [DecidableEq K] (outer : List A) (inner : List B)
    (outerKey : A → K) (innerKey : B → K) (result : A → B → C) : List C :=
  (outer.map (fun o =>
    (inner.filter (fun i => decide (innerKey i = outerKey o))).map (result o))).flatten

/-- `Series.prototype.join` (lines 1783-1809): materialize both pair
streams, join them with the key selectors receiving (value, index) and the
result selector the two matched values, and hand the combined records to
the DataFrame constructor under the `values` key. -/
def seriesJoin {I1 I2 V K R Cell : Type} [DecidableEq K]
    (keysOf : R → List String) (mkRecord : List String → List Cell → R)
    (outer : List (I1 × Option V)) (inner : List (I2 × Option V))
    (outerKeySelector : Option V → I1 → K) (innerKeySelector : Option V → I2 → K)
    (resultSelector : Option V → Option V → R) : Except JsErr (DataFrameD Int R) :=
  let joined := linqJoin (seriesToPairs outer) (seriesToPairs inner)
    (fun outerPair => outerKeySelector outerPair.2 outerPair.1)
    (fun innerPair => innerKeySelector innerPair.2 innerPair.1)
    (fun outerPair innerPair => resultSelector outerPair.2 innerPair.2)
  dataFrameCtor keysOf mkRecord
    (some (DfConfig.mk none none none none (some joined) none false))

/-- The record multiset the claim specifies, written from the spec words:
one `combine(a, b)` per outer value `a` and inner value `b` whose keys are
equal, as a nested loop produces them. -/
def nestedLoopJoinSpec {V K C : Type} [DecidableEq K]
    (outerValues innerValues : List V) (outerKey innerKey : V → K)
    (combine : V → V → C) : List C :=
  (outerValues.map (fun a =>
    (innerValues.filter (fun b => decide (outerKey a = innerKey b))).map
      (combine a))).flatten

theorem seriesJoin_always_empty {I1 I2 V K R Cell : Type} [DecidableEq K]
    (keysOf : R → List String) (mkRecord : List String → List Cell → R)
    (outer : List (I1 × Option V)) (inner : List (I2 × Option V))
    (outerKeySelector : Option V → I1 → K) (innerKeySelector : Option V → I2 → K)
    (resultSelector : Option V → Option V → R) :
    seriesJoin keysOf mkRecord outer inner outerKeySelector innerKeySelector
        resultSelector
      = .ok { columnNames := [], pairs := [] } := rfl

/-- C1 (code bug): at the failing input - the singleton series
`[(0, 1)]` and `[(0, 2)]` joined on a constant key with a two-field
combiner - the nested loop of the claim produces exactly one combined
record, yet `join` returns a DataFrame with no columns and no records: the
combined records travel to the DataFrame constructor under the `values`
key, which no constructor branch ever reads, so construction takes the
empty `!rows && !columns` branch. -/
theorem c1_join_failing_input :
    seriesJoin (fun r : List (String × Int) => r.map Prod.fst)
        (fun names cells => names.zip cells)
        [((0 : Nat), some (1 : Int))] [((0 : Nat), some (2 : Int))]
        (fun _ _ => (0 : Nat)) (fun _ _ => (0 : Nat))
        (fun a b => [("left", a.getD 0), ("right", b.getD 0)])
      = .ok { columnNames := [], pairs := [] }
    ∧ nestedLoopJoinSpec [some (1 : Int)] [some (2 : Int)]
        (fun _ => (0 : Nat)) (fun _ => (0 : Nat))
        (fun a b => [("left", a.getD 0), ("right", b.getD 0)])
      = [[("left", (1 : Int)), ("right", 2)]] := by
  exact ⟨seriesJoin_always_empty _ _ _ _ _ _ _, by decide⟩
